import Mathlib

/-
Shallow embedding of the gocharm build orchestrator (cmd/gocharm/gocharm.go)
and of the hook command wrapper (hook/hook.go).

External effects (the Go toolchain, the filesystem, the charm metadata
library, the jujuc RPC) are modelled as oracles recorded in `CharmWorld`;
the orchestration logic of the source is translated function by function.
Environment entries are modelled as lists of characters so that the
string-prefix scanning of `setenv` can be reasoned about directly.
-/

/-! ### Environment construction (gocharm.go: setenv, compile) -/

abbrev Str := List Char

/-- `strings.HasPrefix e pfx` of the Go source: `hasPfx pat s` is true when
`pat` is a prefix of `s`. -/
def hasPfx : Str → Str → Bool
  | [], _ => true
  | _ :: _, [] => false
  | c :: cs, d :: ds => c == d && hasPfx cs ds

/-- The key prefix `entry[0:i+1]` where `i` is the index of the first `=`
in `entry` (gocharm.go:193-196; the source panics when no `=` is present,
every call site passes an entry containing one). -/
def envKeyPfx (entry : Str) : Str := entry.takeWhile (fun c => c != '=') ++ ['=']

/-- The scan-and-replace loop of `setenv` (gocharm.go:197-204): the first
entry carrying the key prefix is replaced, otherwise the entry is appended. -/
def setenvAux (keyPfx : Str) : List Str → Str → List Str
  | [], entry => [entry]
  | e :: rest, entry =>
      if hasPfx keyPfx e then entry :: rest else e :: setenvAux keyPfx rest entry

/-- `setenv` of gocharm.go:192-205. -/
def setenv (env : List Str) (entry : Str) : List Str := setenvAux (envKeyPfx entry) env entry

/-- The environment built by `compile` (gocharm.go:207-215): `os.Environ()` is
`environ`, `dir.Path` is `charmPath` and `os.Getenv "GOPATH"` is `gopath`. -/
def compileEnv (environ : List Str) (charmPath gopath : Str) (crossCompile : Bool) :
    List Str :=
  let env := setenv environ ("GOPATH=".toList ++ charmPath ++ ':' :: gopath)
  if crossCompile then
    setenv (setenv (setenv env "CGOENABLED=false".toList) "GOARCH=amd64".toList)
      "GOOS=linux".toList
  else env

/-- First entry of `env` carrying the given key prefix (getenv-style lookup,
used to state properties of the constructed environment). -/
def findEntry (keyPfx : Str) : List Str → Option Str
  | [] => none
  | e :: rest => if hasPfx keyPfx e then some e else findEntry keyPfx rest

/-- Value bound to `key` in `env`: the first matching entry with `key=`
stripped. -/
def lookupVal (key : Str) (env : List Str) : Option Str :=
  (findEntry (key ++ ['=']) env).map (fun e => e.drop (key.length + 1))

/-! ### Per-charm pipeline (gocharm.go: main loop, isGoCharm, processGoCharm) -/

/-- Outcome of `os.Stat(dir.Path + "/src/runhook")` in `isGoCharm`
(gocharm.go:179): the path is a directory, exists but is not a directory,
does not exist, or the stat itself failed with some other error. -/
inductive StatResult
  | isDir
  | notDir
  | notExist
  | statErr (msg : String)
deriving DecidableEq

/-- One charm directory together with the oracle outcomes of every external
effect its processing can perform. -/
structure CharmWorld where
  /-- `dir.Path`. -/
  path : String
  /-- `dir.Meta().Name`. -/
  name : String
  /-- Last component of `filepath.Dir(dir.Path)` (gocharm.go:126). -/
  series : String
  /-- On-disk revision number before the run. -/
  revision : Nat
  /-- Outcome of the `os.Stat` in `isGoCharm`. -/
  statRunhook : StatResult
  /-- Whether the `go build` invocation in `compile` exits successfully. -/
  compileOk : Bool
  /-- Whether `bin/runhook` exists after the build (gocharm.go:160). -/
  binRunhookExists : Bool
  /-- Outcome of `registeredHooks`: `none` on failure, otherwise the hook
  names the charm registration logic declared. -/
  registeredHooks : Option (List String)
  /-- Contents of the `hooks/` directory: hook name to stub file content. -/
  stubFs : String → Option String
  /-- Whether the file writes performed by `writeHooks` succeed. -/
  stubWriteOk : Bool
  /-- Whether `dir.SetDiskRevision` succeeds (gocharm.go:123). -/
  revWriteOk : Bool
  /-- Whether the `go test` invocation of `testCharm` succeeds. -/
  testOk : Bool
  /-- Whether the throwaway `pkg` build cache directory exists. -/
  pkgExists : Bool

/-- `isGoCharm` (gocharm.go:178-190): `IsNotExist` and a non-directory both
yield `false` without error, any other stat failure is returned as an error. -/
def isGoCharm : StatResult → Except String Bool
  | .isDir => .ok true
  | .notDir => .ok false
  | .notExist => .ok false
  | .statErr m => .error m

/-- The `hooks["stop"] = true` insertion of gocharm.go:170, on the key set of
the hook map: a no-op when "stop" is already registered. -/
def addStop (hooks : List String) : List String :=
  if "stop" ∈ hooks then hooks else hooks ++ ["stop"]

/-- Modelled from the spec: the source of `writeHooks` is not under src/, so
the canonical stub content follows §4.6 — "a deterministic template
parameterized only by hook name and binary path". -/
def stubContent (hook : String) : String :=
  "#!/bin/sh\nexec bin/runhook " ++ hook

/-- Point update of the modelled `hooks/` directory. -/
def fsWrite (fs : String → Option String) (k v : String) : String → Option String :=
  fun k2 => if k2 = k then some v else fs k2

/-- Modelled from the spec: one step of the stub reconciliation of §4.6 —
write the canonical content when no stub exists, keep an identical stub,
and keep a differing stub while recording its hook name as a conflict. -/
def syncStub (acc : (String → Option String) × List String) (h : String) :
    (String → Option String) × List String :=
  match acc.1 h with
  | none => (fsWrite acc.1 h (stubContent h), acc.2)
  | some c => if c = stubContent h then acc else (acc.1, acc.2 ++ [h])

/-- Modelled from the spec: `writeHooks` (called at gocharm.go:171, source
missing from src/) reconciles every hook of the set against the `hooks/`
directory, returning the new directory contents and the conflicting hooks. -/
def writeHooks (fs : String → Option String) (hooks : List String) :
    (String → Option String) × List String :=
  hooks.foldl syncStub (fs, [])

/-- Result of `processGoCharm` together with its effects on the charm tree. -/
structure ProcResult where
  stubFs : String → Option String
  conflicts : List String
  pkgExists : Bool
  buildInvoked : Bool
  doneSomething : Bool
  err : Option String

/-- Body of `processGoCharm` (gocharm.go:154-176) without the deferred
cleanup: test mode runs the tests and reports nothing done; otherwise the
build, the artifact check, the hook introspection and the stub
synchronization run in order, each failure returning early. -/
def processGoCharmBody (test : Bool) (w : CharmWorld) : ProcResult :=
  if test then
    { stubFs := w.stubFs, conflicts := [], pkgExists := w.pkgExists,
      buildInvoked := false, doneSomething := false,
      err := if w.testOk then none else some "tests failed" }
  else if !w.compileOk then
    { stubFs := w.stubFs, conflicts := [], pkgExists := w.pkgExists,
      buildInvoked := true, doneSomething := false,
      err := some "cannot build hooks main package" }
  else if !w.binRunhookExists then
    { stubFs := w.stubFs, conflicts := [], pkgExists := w.pkgExists,
      buildInvoked := true, doneSomething := false,
      err := some "runhook command not built" }
  else
    match w.registeredHooks with
    | none =>
        { stubFs := w.stubFs, conflicts := [], pkgExists := w.pkgExists,
          buildInvoked := true, doneSomething := false,
          err := some "cannot get registered hooks" }
    | some hooks =>
        if !w.stubWriteOk then
          { stubFs := w.stubFs, conflicts := [], pkgExists := w.pkgExists,
            buildInvoked := true, doneSomething := false,
            err := some "cannot write hooks to charm" }
        else
          let r := writeHooks w.stubFs (addStop hooks)
          { stubFs := r.1, conflicts := r.2, pkgExists := w.pkgExists,
            buildInvoked := true, doneSomething := true, err := none }

/-- `processGoCharm` (gocharm.go:154-176): the body under the deferred
`os.RemoveAll(dir.Path + "/pkg")`, which runs on every exit path. -/
def processGoCharm (test : Bool) (w : CharmWorld) : ProcResult :=
  let r := processGoCharmBody test w
  { r with pkgExists := false }

/-- Observable result of one iteration of the main loop for one charm. -/
structure CharmOutcome where
  stubFs : String → Option String
  revision : Nat
  pkgExists : Bool
  buildInvoked : Bool
  stdout : List String
  stderr : List String
  errored : Bool

/-- The success line `local:series/name-rev` printed at gocharm.go:127. -/
def successLine (w : CharmWorld) (rev : Nat) : String :=
  "local:" ++ w.series ++ "/" ++ w.name ++ "-" ++ toString rev

/-- Modelled from the spec: the conflict warning emitted by the missing
`writeHooks` names the conflicting stub file (§4.6). -/
def conflictWarning (w : CharmWorld) (h : String) : String :=
  "gocharm: warning: not overwriting " ++ w.path ++ "/hooks/" ++ h

/-- One iteration of the main loop (gocharm.go:101-128): classification,
processing, revision bump and reporting for a single charm.  On a
classification error only a warning is printed (`warningf` does not touch
the exit code); on a processing error `errorf` marks the run failed; when
something was done the revision is bumped and the success line printed —
`SetDiskRevision` sets the in-memory revision before attempting the disk
write, so on its failure the line still shows `revision + 1` while the disk
keeps the old value, and no `continue` guards the print. -/
def runCharm (test verbose : Bool) (w : CharmWorld) : CharmOutcome :=
  match isGoCharm w.statRunhook with
  | .error e =>
      { stubFs := w.stubFs, revision := w.revision, pkgExists := w.pkgExists,
        buildInvoked := false, stdout := [],
        stderr := ["gocharm: warning: cannot determine if " ++ w.path ++
                   " is a Go charm: " ++ e],
        errored := false }
  | .ok false =>
      { stubFs := w.stubFs, revision := w.revision, pkgExists := w.pkgExists,
        buildInvoked := false, stdout := [],
        stderr := if verbose then ["ignoring non-Go charm " ++ w.path] else [],
        errored := false }
  | .ok true =>
      let vlog := if verbose then ["processing " ++ w.path] else []
      let r := processGoCharm test w
      match r.err with
      | some e =>
          { stubFs := r.stubFs, revision := w.revision, pkgExists := r.pkgExists,
            buildInvoked := r.buildInvoked, stdout := [],
            stderr := vlog ++ r.conflicts.map (conflictWarning w) ++
                      ["error info: " ++ e,
                       "gocharm: failed compile or test charm " ++ w.path ++ ": " ++ e],
            errored := true }
      | none =>
          if r.doneSomething then
            if w.revWriteOk then
              { stubFs := r.stubFs, revision := w.revision + 1,
                pkgExists := r.pkgExists, buildInvoked := r.buildInvoked,
                stdout := [successLine w (w.revision + 1)],
                stderr := vlog ++ r.conflicts.map (conflictWarning w),
                errored := false }
            else
              { stubFs := r.stubFs, revision := w.revision,
                pkgExists := r.pkgExists, buildInvoked := r.buildInvoked,
                stdout := [successLine w (w.revision + 1)],
                stderr := vlog ++ r.conflicts.map (conflictWarning w) ++
                          ["gocharm: cannot bump revision on " ++ w.path],
                errored := true }
          else
            { stubFs := r.stubFs, revision := w.revision, pkgExists := r.pkgExists,
              buildInvoked := r.buildInvoked, stdout := [],
              stderr := vlog ++ r.conflicts.map (conflictWarning w),
              errored := false }

/-- Aggregate result of the whole run. -/
structure RunResult where
  exitCode : Nat
  stdout : List String
  stderr : List String
  outcomes : List CharmOutcome

/-- `main` (gocharm.go:79-129): repository resolution (flag, then the
environment variable), the fatal "no charms found" check, then the per-charm
loop.  `fatalf` exits with status 2; `errorf` sets the eventual exit status
to 1; an untouched run exits 0. -/
def gocharmMain (repoFlag envRepo : String) (test verbose : Bool)
    (charms : List CharmWorld) : RunResult :=
  if repoFlag = "" ∧ envRepo = "" then
    { exitCode := 2, stdout := [],
      stderr := ["gocharm: no charm repo directory specified"], outcomes := [] }
  else if charms.isEmpty then
    { exitCode := 2, stdout := [], stderr := ["gocharm: no charms found"],
      outcomes := [] }
  else
    let outs := charms.map (runCharm test verbose)
    { exitCode := if outs.any (·.errored) then 1 else 0,
      stdout := outs.flatMap (·.stdout),
      stderr := outs.flatMap (·.stderr),
      outcomes := outs }

/-- `StatResult.isDir` as a Boolean test. -/
def StatResult.isDirB : StatResult → Bool
  | .isDir => true
  | _ => false

/-- The per-charm pipeline reached stub synchronization and every stage
succeeded: the charm is a Go charm, the build ran and produced the artifact,
hook introspection succeeded and the stub writes succeeded. -/
def pipelineOk (w : CharmWorld) : Bool :=
  w.statRunhook.isDirB && w.compileOk && w.binRunhookExists &&
    w.registeredHooks.isSome && w.stubWriteOk

/-! ### Relation setting (hook/hook.go: SetRelationWithId) -/

/-- The key/value formatting loop of `SetRelationWithId` (hook.go:140-142):
consecutive pairs become `key=value` arguments in order. -/
def pairArgs : List String → List String
  | k :: v :: rest => (k ++ "=" ++ v) :: pairArgs rest
  | _ => []

/-- `SetRelationWithId` (hook.go:129-145).  `runErr` is the outcome of the
`ctxt.run` RPC; the second component records the external commands invoked
with their argument lists. -/
def setRelationWithId (runErr : Option String) (relationId : String)
    (keyvals : List String) : Option String × List (String × List String) :=
  if keyvals.length % 2 ≠ 0 then (some "invalid key/value count", [])
  else if keyvals.length = 0 then (none, [])
  else (runErr, [("relation-set", ["-r", relationId, "--"] ++ pairArgs keyvals)])

/-! ### Concrete example inputs -/

/-- An empty `hooks/` directory. -/
def emptyFs : String → Option String := fun _ => none

/-- A charm whose whole pipeline succeeds. -/
def wOk : CharmWorld :=
  { path := "repo/trusty/wordpress", name := "wordpress", series := "trusty",
    revision := 3, statRunhook := .isDir, compileOk := true,
    binRunhookExists := true, registeredHooks := some ["config-changed"],
    stubFs := emptyFs, stubWriteOk := true, revWriteOk := true, testOk := true,
    pkgExists := true }

/-- As `wOk`, but a hand-edited `stop` stub is already on disk. -/
def wConflict : CharmWorld :=
  { wOk with stubFs := fun h => if h = "stop" then some "# custom edit" else none }

/-- As `wOk`, but persisting the bumped revision fails. -/
def wRevFail : CharmWorld := { wOk with revWriteOk := false }

/-- As `wOk`, but the classification stat fails with a non-not-exist error. -/
def wStatErr : CharmWorld := { wOk with statRunhook := .statErr "permission denied" }

/-- As `wOk`, but the hook-source subdirectory does not exist. -/
def wNotExist : CharmWorld := { wOk with statRunhook := .notExist }

/-- As `wOk`, but the build fails. -/
def wBuildFail : CharmWorld := { wOk with compileOk := false }

/-- An example inherited process environment. -/
def environEx : List Str :=
  ["HOME=/root".toList, "GOOS=darwin".toList, "GOPATH=/go".toList]

/-! ### Properties of the environment construction -/

theorem hasPfx_append_self (k t : Str) : hasPfx k (k ++ t) = true := by
  induction k with
  | nil => rfl
  | cons c cs ih => simp [hasPfx, ih]

theorem hasPfx_comparable (k1 : Str) : ∀ (k2 e : Str), hasPfx k1 e = true →
    hasPfx k2 e = true → k1.length ≤ k2.length → hasPfx k1 k2 = true := by
  induction k1 with
  | nil => intro k2 e _ _ _; rfl
  | cons c cs ih =>
    intro k2 e h1 h2 hlen
    cases e with
    | nil => simp [hasPfx] at h1
    | cons x xs =>
      cases k2 with
      | nil => simp at hlen
      | cons d ds =>
        simp [hasPfx] at h1 h2 ⊢
        obtain ⟨hcx, h1'⟩ := h1
        obtain ⟨hdx, h2'⟩ := h2
        subst hcx
        constructor
        · exact hdx.symm
        · exact ih ds xs h1' h2' (by simpa using hlen)

theorem hasPfx_excl_of_ne (k1 k2 : Str) (h12 : hasPfx k1 k2 = false)
    (h21 : hasPfx k2 k1 = false) :
    ∀ e, hasPfx k1 e = true → hasPfx k2 e = false := by
  intro e h1
  cases hc : hasPfx k2 e with
  | false => rfl
  | true =>
    rcases Nat.le_total k1.length k2.length with hl | hl
    · exact absurd (hasPfx_comparable k1 k2 e h1 hc hl) (by simp [h12])
    · exact absurd (hasPfx_comparable k2 k1 e hc h1 hl) (by simp [h21])

theorem findEntry_setenvAux_self (kp entry : Str) (env : List Str)
    (h : hasPfx kp entry = true) :
    findEntry kp (setenvAux kp env entry) = some entry := by
  induction env with
  | nil => simp [setenvAux, findEntry, h]
  | cons e rest ih =>
    by_cases hc : hasPfx kp e = true
    · simp [setenvAux, hc, findEntry, h]
    · simp only [Bool.not_eq_true] at hc
      simp [setenvAux, hc, findEntry, ih]

theorem findEntry_setenvAux_other (kpA kpB entry : Str) (env : List Str)
    (hB : hasPfx kpB entry = false)
    (hex : ∀ e, hasPfx kpA e = true → hasPfx kpB e = false) :
    findEntry kpB (setenvAux kpA env entry) = findEntry kpB env := by
  induction env with
  | nil => simp [setenvAux, findEntry, hB]
  | cons e rest ih =>
    by_cases hc : hasPfx kpA e = true
    · simp [setenvAux, hc, findEntry, hB, hex e hc]
    · simp only [Bool.not_eq_true] at hc
      by_cases hb : hasPfx kpB e = true
      · simp [setenvAux, hc, findEntry, hb]
      · simp only [Bool.not_eq_true] at hb
        simp [setenvAux, hc, findEntry, hb, ih]

theorem filter_setenvAux_other (kpA kpB entry : Str) (env : List Str)
    (hB : hasPfx kpB entry = false)
    (hex : ∀ e, hasPfx kpA e = true → hasPfx kpB e = false) :
    (setenvAux kpA env entry).filter (fun e => hasPfx kpB e)
      = env.filter (fun e => hasPfx kpB e) := by
  induction env with
  | nil => simp [setenvAux, hB]
  | cons e rest ih =>
    by_cases hc : hasPfx kpA e = true
    · simp [setenvAux, hc, hB, hex e hc]
    · simp only [Bool.not_eq_true] at hc
      simp [setenvAux, hc, List.filter_cons, ih]

theorem filter_setenvAux_self (kp entry : Str) (env : List Str)
    (hE : hasPfx kp entry = true)
    (hcount : env.countP (fun e => hasPfx kp e) ≤ 1) :
    (setenvAux kp env entry).filter (fun e => hasPfx kp e) = [entry] := by
  induction env with
  | nil => simp [setenvAux, hE]
  | cons e rest ih =>
    by_cases hc : hasPfx kp e = true
    · have h1 := hcount
      rw [List.countP_cons_of_pos _ rest (by simpa using hc)] at h1
      have hz : rest.countP (fun x => hasPfx kp x) = 0 := by omega
      have hnil : rest.filter (fun x => hasPfx kp x) = [] := by
        rw [List.filter_eq_nil_iff]
        intro a ha
        have := List.countP_eq_zero.mp hz a ha
        simpa using this
      simp [setenvAux, hc, List.filter_cons, hE, hnil]
    · simp only [Bool.not_eq_true] at hc
      have hle : rest.countP (fun x => hasPfx kp x) ≤ 1 := by
        have h1 := hcount
        rw [List.countP_cons_of_neg _ rest (by simp [hc])] at h1
        exact h1
      simp [setenvAux, hc, List.filter_cons, ih hle]


theorem countP_setenvAux_other (kpA kpB entry : Str) (env : List Str)
    (hB : hasPfx kpB entry = false)
    (hex : ∀ e, hasPfx kpA e = true → hasPfx kpB e = false) :
    (setenvAux kpA env entry).countP (fun e => hasPfx kpB e)
      = env.countP (fun e => hasPfx kpB e) := by
  rw [List.countP_eq_length_filter, List.countP_eq_length_filter,
    filter_setenvAux_other kpA kpB entry env hB hex]

/-- C7: the environment constructed for a charm build binds GOPATH to the
charm's own root followed by the inherited global search path as a fallback,
and, cross-compiling, binds the native-interop-disabled flag CGOENABLED to
false, GOOS to linux and GOARCH to amd64; for each of these variable names
the value is overridden in place (last-write-wins), so when the inherited
environment held at most one entry for the name, the constructed environment
holds exactly one, carrying the new value, rather than an appended
duplicate. -/
theorem gocharm_compile_env_spec (environ : List Str) (p g : Str) :
    lookupVal "GOPATH".toList (compileEnv environ p g true) = some (p ++ ':' :: g)
    ∧ lookupVal "CGOENABLED".toList (compileEnv environ p g true) = some "false".toList
    ∧ lookupVal "GOOS".toList (compileEnv environ p g true) = some "linux".toList
    ∧ lookupVal "GOARCH".toList (compileEnv environ p g true) = some "amd64".toList
    ∧ (environ.countP (fun e => hasPfx "GOOS=".toList e) ≤ 1 →
        (compileEnv environ p g true).filter (fun e => hasPfx "GOOS=".toList e)
          = ["GOOS=linux".toList])
    ∧ (environ.countP (fun e => hasPfx "GOARCH=".toList e) ≤ 1 →
        (compileEnv environ p g true).filter (fun e => hasPfx "GOARCH=".toList e)
          = ["GOARCH=amd64".toList])
    ∧ (environ.countP (fun e => hasPfx "CGOENABLED=".toList e) ≤ 1 →
        (compileEnv environ p g true).filter (fun e => hasPfx "CGOENABLED=".toList e)
          = ["CGOENABLED=false".toList])
    ∧ (environ.countP (fun e => hasPfx "GOPATH=".toList e) ≤ 1 →
        (compileEnv environ p g true).filter (fun e => hasPfx "GOPATH=".toList e)
          = ["GOPATH=".toList ++ p ++ ':' :: g]) := by
  have hC : compileEnv environ p g true
      = setenvAux "GOOS=".toList
          (setenvAux "GOARCH=".toList
            (setenvAux "CGOENABLED=".toList
              (setenvAux "GOPATH=".toList environ ("GOPATH=".toList ++ p ++ ':' :: g))
              "CGOENABLED=false".toList)
            "GOARCH=amd64".toList)
          "GOOS=linux".toList := rfl
  have eSA : ∀ e, hasPfx "GOOS=".toList e = true → hasPfx "GOARCH=".toList e = false :=
    hasPfx_excl_of_ne _ _ (by decide) (by decide)
  have eAS : ∀ e, hasPfx "GOARCH=".toList e = true → hasPfx "GOOS=".toList e = false :=
    hasPfx_excl_of_ne _ _ (by decide) (by decide)
  have eSC : ∀ e, hasPfx "GOOS=".toList e = true → hasPfx "CGOENABLED=".toList e = false :=
    hasPfx_excl_of_ne _ _ (by decide) (by decide)
  have eCS : ∀ e, hasPfx "CGOENABLED=".toList e = true → hasPfx "GOOS=".toList e = false :=
    hasPfx_excl_of_ne _ _ (by decide) (by decide)
  have eAC : ∀ e, hasPfx "GOARCH=".toList e = true → hasPfx "CGOENABLED=".toList e = false :=
    hasPfx_excl_of_ne _ _ (by decide) (by decide)
  have eCA : ∀ e, hasPfx "CGOENABLED=".toList e = true → hasPfx "GOARCH=".toList e = false :=
    hasPfx_excl_of_ne _ _ (by decide) (by decide)
  have eSP : ∀ e, hasPfx "GOOS=".toList e = true → hasPfx "GOPATH=".toList e = false :=
    hasPfx_excl_of_ne _ _ (by decide) (by decide)
  have ePS : ∀ e, hasPfx "GOPATH=".toList e = true → hasPfx "GOOS=".toList e = false :=
    hasPfx_excl_of_ne _ _ (by decide) (by decide)
  have eAP : ∀ e, hasPfx "GOARCH=".toList e = true → hasPfx "GOPATH=".toList e = false :=
    hasPfx_excl_of_ne _ _ (by decide) (by decide)
  have ePA : ∀ e, hasPfx "GOPATH=".toList e = true → hasPfx "GOARCH=".toList e = false :=
    hasPfx_excl_of_ne _ _ (by decide) (by decide)
  have eCP : ∀ e, hasPfx "CGOENABLED=".toList e = true → hasPfx "GOPATH=".toList e = false :=
    hasPfx_excl_of_ne _ _ (by decide) (by decide)
  have ePC : ∀ e, hasPfx "GOPATH=".toList e = true → hasPfx "CGOENABLED=".toList e = false :=
    hasPfx_excl_of_ne _ _ (by decide) (by decide)
  have hGPentry : hasPfx "GOPATH=".toList ("GOPATH=".toList ++ p ++ ':' :: g) = true :=
    hasPfx_append_self _ _
  have fGOS : findEntry "GOOS=".toList (compileEnv environ p g true)
      = some "GOOS=linux".toList := by
    rw [hC, findEntry_setenvAux_self _ _ _ (by decide)]
  have fGOA : findEntry "GOARCH=".toList (compileEnv environ p g true)
      = some "GOARCH=amd64".toList := by
    rw [hC, findEntry_setenvAux_other _ _ _ _ (by decide) eSA,
      findEntry_setenvAux_self _ _ _ (by decide)]
  have fCGO : findEntry "CGOENABLED=".toList (compileEnv environ p g true)
      = some "CGOENABLED=false".toList := by
    rw [hC, findEntry_setenvAux_other _ _ _ _ (by decide) eSC,
      findEntry_setenvAux_other _ _ _ _ (by decide) eAC,
      findEntry_setenvAux_self _ _ _ (by decide)]
  have fGOP : findEntry "GOPATH=".toList (compileEnv environ p g true)
      = some ("GOPATH=".toList ++ p ++ ':' :: g) := by
    rw [hC, findEntry_setenvAux_other _ _ _ _ (by rfl) eSP,
      findEntry_setenvAux_other _ _ _ _ (by rfl) eAP,
      findEntry_setenvAux_other _ _ _ _ (by rfl) eCP,
      findEntry_setenvAux_self _ _ _ hGPentry]
  refine ⟨?_, ?_, ?_, ?_, ?_, ?_, ?_, ?_⟩
  · simp only [lookupVal]
    rw [show ("GOPATH".toList ++ ['=']) = "GOPATH=".toList from rfl, fGOP]
    rfl
  · simp only [lookupVal]
    rw [show ("CGOENABLED".toList ++ ['=']) = "CGOENABLED=".toList from rfl, fCGO]
    rfl
  · simp only [lookupVal]
    rw [show ("GOOS".toList ++ ['=']) = "GOOS=".toList from rfl, fGOS]
    rfl
  · simp only [lookupVal]
    rw [show ("GOARCH".toList ++ ['=']) = "GOARCH=".toList from rfl, fGOA]
    rfl
  · intro hcount
    rw [hC]
    apply filter_setenvAux_self _ _ _ (by decide)
    rw [countP_setenvAux_other _ _ _ _ (by decide) eAS,
      countP_setenvAux_other _ _ _ _ (by decide) eCS,
      countP_setenvAux_other _ _ _ _ (by rfl) ePS]
    exact hcount
  · intro hcount
    rw [hC, filter_setenvAux_other _ _ _ _ (by decide) eSA]
    apply filter_setenvAux_self _ _ _ (by decide)
    rw [countP_setenvAux_other _ _ _ _ (by decide) eCA,
      countP_setenvAux_other _ _ _ _ (by rfl) ePA]
    exact hcount
  · intro hcount
    rw [hC, filter_setenvAux_other _ _ _ _ (by decide) eSC,
      filter_setenvAux_other _ _ _ _ (by decide) eAC]
    apply filter_setenvAux_self _ _ _ (by decide)
    rw [countP_setenvAux_other _ _ _ _ (by rfl) ePC]
    exact hcount
  · intro hcount
    rw [hC, filter_setenvAux_other _ _ _ _ (by rfl) eSP,
      filter_setenvAux_other _ _ _ _ (by rfl) eAP,
      filter_setenvAux_other _ _ _ _ (by rfl) eCP]
    exact filter_setenvAux_self _ _ _ hGPentry hcount

/-- Witness for C7 at a concrete inherited environment with pre-existing
GOOS and GOPATH entries. -/
theorem gocharm_compile_env_spec_witness :
    lookupVal "GOPATH".toList (compileEnv environEx "/charm".toList "/go".toList true)
      = some ("/charm".toList ++ ':' :: "/go".toList)
    ∧ lookupVal "CGOENABLED".toList (compileEnv environEx "/charm".toList "/go".toList true)
      = some "false".toList
    ∧ lookupVal "GOOS".toList (compileEnv environEx "/charm".toList "/go".toList true)
      = some "linux".toList
    ∧ lookupVal "GOARCH".toList (compileEnv environEx "/charm".toList "/go".toList true)
      = some "amd64".toList
    ∧ (compileEnv environEx "/charm".toList "/go".toList true).filter
        (fun e => hasPfx "GOOS=".toList e) = ["GOOS=linux".toList]
    ∧ (compileEnv environEx "/charm".toList "/go".toList true).filter
        (fun e => hasPfx "GOARCH=".toList e) = ["GOARCH=amd64".toList]
    ∧ (compileEnv environEx "/charm".toList "/go".toList true).filter
        (fun e => hasPfx "CGOENABLED=".toList e) = ["CGOENABLED=false".toList]
    ∧ (compileEnv environEx "/charm".toList "/go".toList true).filter
        (fun e => hasPfx "GOPATH=".toList e)
          = ["GOPATH=".toList ++ "/charm".toList ++ ':' :: "/go".toList] := by
  have h := gocharm_compile_env_spec environEx "/charm".toList "/go".toList
  exact ⟨h.1, h.2.1, h.2.2.1, h.2.2.2.1, h.2.2.2.2.1 (by decide),
    h.2.2.2.2.2.1 (by decide), h.2.2.2.2.2.2.1 (by decide),
    h.2.2.2.2.2.2.2 (by decide)⟩

/-! ### Properties of the stub synchronization -/

theorem foldl_syncStub_preserves (hooks : List String) :
    ∀ (fs : String → Option String) (ws : List String) (k v : String),
      fs k = some v → (hooks.foldl syncStub (fs, ws)).1 k = some v := by
  induction hooks with
  | nil => intro fs ws k v h; simpa using h
  | cons g rest ih =>
    intro fs ws k v h
    simp only [List.foldl_cons]
    rcases hg : fs g with _ | c
    · have hkg : k ≠ g := by intro he; rw [he, hg] at h; cases h
      rw [show syncStub (fs, ws) g = (fsWrite fs g (stubContent g), ws) from by
        simp [syncStub, hg]]
      exact ih _ _ _ _ (by simp [fsWrite, hkg, h])
    · by_cases hc : c = stubContent g
      · rw [show syncStub (fs, ws) g = (fs, ws) from by simp [syncStub, hg, hc]]
        exact ih _ _ _ _ h
      · rw [show syncStub (fs, ws) g = (fs, ws ++ [g]) from by simp [syncStub, hg, hc]]
        exact ih _ _ _ _ h

theorem foldl_syncStub_warns_mono (hooks : List String) :
    ∀ (fs : String → Option String) (ws : List String) (x : String),
      x ∈ ws → x ∈ (hooks.foldl syncStub (fs, ws)).2 := by
  induction hooks with
  | nil => intro fs ws x h; simpa using h
  | cons g rest ih =>
    intro fs ws x h
    simp only [List.foldl_cons]
    rcases hg : fs g with _ | c
    · rw [show syncStub (fs, ws) g = (fsWrite fs g (stubContent g), ws) from by
        simp [syncStub, hg]]
      exact ih _ _ _ h
    · by_cases hc : c = stubContent g
      · rw [show syncStub (fs, ws) g = (fs, ws) from by simp [syncStub, hg, hc]]
        exact ih _ _ _ h
      · rw [show syncStub (fs, ws) g = (fs, ws ++ [g]) from by simp [syncStub, hg, hc]]
        exact ih _ _ _ (List.mem_append_left _ h)

theorem foldl_syncStub_conflict (hooks : List String) :
    ∀ (fs : String → Option String) (ws : List String) (k v : String),
      k ∈ hooks → fs k = some v → v ≠ stubContent k →
      k ∈ (hooks.foldl syncStub (fs, ws)).2 := by
  induction hooks with
  | nil => intro fs ws k v hmem; cases hmem
  | cons g rest ih =>
    intro fs ws k v hmem hfs hne
    simp only [List.foldl_cons]
    rcases List.mem_cons.mp hmem with he | hrest
    · subst he
      rw [show syncStub (fs, ws) k = (fs, ws ++ [k]) from by simp [syncStub, hfs, hne]]
      exact foldl_syncStub_warns_mono rest fs _ k (by simp)
    · rcases hg : fs g with _ | c
      · have hkg : k ≠ g := by intro he; rw [he, hg] at hfs; cases hfs
        rw [show syncStub (fs, ws) g = (fsWrite fs g (stubContent g), ws) from by
          simp [syncStub, hg]]
        exact ih _ _ _ _ hrest (by simp [fsWrite, hkg, hfs]) hne
      · by_cases hc : c = stubContent g
        · rw [show syncStub (fs, ws) g = (fs, ws) from by simp [syncStub, hg, hc]]
          exact ih _ _ _ _ hrest hfs hne
        · rw [show syncStub (fs, ws) g = (fs, ws ++ [g]) from by simp [syncStub, hg, hc]]
          exact ih _ _ _ _ hrest hfs hne

/-! ### Claim theorems -/

/-- C8: the throwaway `pkg` build cache directory under the charm root is
removed on every exit path of the per-charm build pipeline: in test mode and
in build mode, on success, compiler failure, missing-artifact failure,
introspection failure and stub-write failure alike. -/
theorem gocharm_pkg_dir_always_removed (test : Bool) (w : CharmWorld) :
    (processGoCharm test w).pkgExists = false := rfl

/-- C2: the hook set used to write stubs is the registered hook set with
"stop" inserted: it contains "stop" even when registration logic never
registered it, every registered hook is preserved, and nothing beyond "stop"
is added. -/
theorem gocharm_stop_hook_always_in_stub_set (hooks : List String) :
    "stop" ∈ addStop hooks
    ∧ (∀ h, h ∈ hooks → h ∈ addStop hooks)
    ∧ (∀ h, h ∈ addStop hooks → h = "stop" ∨ h ∈ hooks) := by
  by_cases hs : "stop" ∈ hooks
  · rw [addStop, if_pos hs]
    exact ⟨hs, fun h hh => hh, fun h hh => Or.inr hh⟩
  · rw [addStop, if_neg hs]
    refine ⟨by simp, fun h hh => List.mem_append_left _ hh, fun h hh => ?_⟩
    rcases List.mem_append.mp hh with h1 | h2
    · exact Or.inr h1
    · simp at h2
      exact Or.inl h2

/-- Witness for C2 at a registration set that does not contain "stop". -/
theorem gocharm_stop_hook_always_in_stub_set_witness :
    "stop" ∈ addStop ["config-changed"]
    ∧ "config-changed" ∈ addStop ["config-changed"]
    ∧ ("config-changed" = "stop" ∨ "config-changed" ∈ ["config-changed"]) := by
  have h := gocharm_stop_hook_always_in_stub_set ["config-changed"]
  exact ⟨h.1, h.2.1 "config-changed" (by simp),
    h.2.2 "config-changed" (h.2.1 "config-changed" (by simp))⟩

/-- C10: `SetRelationWithId` rejects an odd key/value count with an error and
no command invocation, returns nil for an empty list with no command
invocation, and otherwise invokes relation-set exactly once with the pairs
formatted as key=value in argument order. -/
theorem hook_set_relation_with_id_spec (runErr : Option String) (rid : String)
    (kv : List String) :
    (kv.length % 2 = 1 →
      setRelationWithId runErr rid kv = (some "invalid key/value count", []))
    ∧ setRelationWithId runErr rid [] = (none, [])
    ∧ (kv.length % 2 = 0 → kv ≠ [] →
        setRelationWithId runErr rid kv
          = (runErr, [("relation-set", ["-r", rid, "--"] ++ pairArgs kv)])) := by
  refine ⟨?_, ?_, ?_⟩
  · intro h
    simp [setRelationWithId, h]
  · simp [setRelationWithId]
  · intro h hne
    have hlen : kv.length ≠ 0 := fun h0 => hne (List.length_eq_zero.mp h0)
    simp [setRelationWithId, h, hlen]

/-- Witness for C10 at an odd list, the empty list and a two-pair list. -/
theorem hook_set_relation_with_id_spec_witness :
    setRelationWithId none "db:0" ["a", "b", "c"] = (some "invalid key/value count", [])
    ∧ setRelationWithId none "db:0" [] = (none, [])
    ∧ setRelationWithId none "db:0" ["user", "admin", "pass", "secret"]
        = (none, [("relation-set", ["-r", "db:0", "--", "user=admin", "pass=secret"])]) := by
  have h1 := hook_set_relation_with_id_spec none "db:0" ["a", "b", "c"]
  have h2 := hook_set_relation_with_id_spec none "db:0" ["user", "admin", "pass", "secret"]
  refine ⟨h1.1 (by decide), h1.2.1, (h2.2.2 (by decide) (by decide)).trans (by decide)⟩

/-- C1: when persisting the bumped revision itself succeeds, the on-disk
revision number is incremented by exactly one iff the charm is a Go charm
whose build, artifact check, hook introspection and stub synchronization all
completed without fatal error; on any per-charm failure, and for skipped
charms, the revision is left unchanged (build mode, no -test flag). -/
theorem gocharm_revision_bump_iff_pipeline_ok (verbose : Bool) (w : CharmWorld)
    (hrev : w.revWriteOk = true) :
    ((runCharm false verbose w).revision = w.revision + 1 ↔ pipelineOk w = true)
    ∧ (pipelineOk w = false → (runCharm false verbose w).revision = w.revision) := by
  obtain ⟨path, name, series, rev, stat, cok, bex, rh, fs, swk, rwk, tok, pk⟩ := w
  cases rwk
  · simp at hrev
  · cases stat <;> cases cok <;> cases bex <;> cases rh <;> cases swk <;>
      simp [runCharm, processGoCharm, processGoCharmBody, isGoCharm, pipelineOk,
        StatResult.isDirB]

/-- Witness for C1: at `wOk` the revision advances from 3 to 4, and at the
failing build `wBuildFail` it stays at 3. -/
theorem gocharm_revision_bump_iff_pipeline_ok_witness :
    (runCharm false false wOk).revision = wOk.revision + 1
    ∧ (runCharm false false wBuildFail).revision = wBuildFail.revision := by
  have h1 := gocharm_revision_bump_iff_pipeline_ok false wOk rfl
  have h2 := gocharm_revision_bump_iff_pipeline_ok false wBuildFail rfl
  exact ⟨h1.1.mpr (by decide), h2.2 (by decide)⟩

/-- C4: a charm whose conventional hook-source subdirectory does not exist,
or exists but is not a directory, is silently skipped outside verbose mode:
no build is invoked, the stub directory and the revision are untouched, the
skip is not treated as an error, and nothing is printed. -/
theorem gocharm_non_go_charm_skipped (test : Bool) (w : CharmWorld)
    (h : w.statRunhook = StatResult.notExist ∨ w.statRunhook = StatResult.notDir) :
    (runCharm test false w).buildInvoked = false
    ∧ (runCharm test false w).stubFs = w.stubFs
    ∧ (runCharm test false w).revision = w.revision
    ∧ (runCharm test false w).stdout = []
    ∧ (runCharm test false w).stderr = []
    ∧ (runCharm test false w).errored = false := by
  rcases h with h | h <;> simp [runCharm, h, isGoCharm]

/-- Witness for C4 at a charm without the `src/runhook` subdirectory. -/
theorem gocharm_non_go_charm_skipped_witness :
    (runCharm false false wNotExist).buildInvoked = false
    ∧ (runCharm false false wNotExist).stubFs = wNotExist.stubFs
    ∧ (runCharm false false wNotExist).revision = wNotExist.revision
    ∧ (runCharm false false wNotExist).stdout = []
    ∧ (runCharm false false wNotExist).stderr = []
    ∧ (runCharm false false wNotExist).errored = false :=
  gocharm_non_go_charm_skipped false wNotExist (Or.inl rfl)

/-- C9 (amended): in build mode exactly one line of the form
local:series/name-(revision+1) goes to standard output for each charm whose
build, introspection and stub synchronization succeeded — even when the
subsequent revision persist fails — and skipped or failed charms produce
zero standard-output lines; in test mode nothing is ever printed to standard
output. -/
theorem gocharm_success_line_iff_pipeline_ok (verbose : Bool) (w : CharmWorld) :
    (pipelineOk w = true →
      (runCharm false verbose w).stdout = [successLine w (w.revision + 1)])
    ∧ (pipelineOk w = false → (runCharm false verbose w).stdout = [])
    ∧ (runCharm true verbose w).stdout = [] := by
  obtain ⟨path, name, series, rev, stat, cok, bex, rh, fs, swk, rwk, tok, pk⟩ := w
  cases stat <;> cases cok <;> cases bex <;> cases rh <;> cases swk <;> cases rwk <;>
    cases tok <;>
    simp [runCharm, processGoCharm, processGoCharmBody, isGoCharm, pipelineOk,
      StatResult.isDirB]

/-- Witness for C9 (amended): `wOk` prints its one success line, and the
skipped `wNotExist` prints nothing. -/
theorem gocharm_success_line_iff_pipeline_ok_witness :
    (runCharm false false wOk).stdout = [successLine wOk (wOk.revision + 1)]
    ∧ (runCharm false false wNotExist).stdout = [] := by
  have h1 := gocharm_success_line_iff_pipeline_ok false wOk
  have h2 := gocharm_success_line_iff_pipeline_ok false wNotExist
  exact ⟨h1.1 (by decide), h2.2.1 (by decide)⟩

/-- Counterexample for C9 as stated: at `wRevFail` the pipeline succeeds but
persisting the bumped revision fails, so the charm's revision is not
advanced and the charm is recorded as failed — yet one success line is still
printed, because no early return guards the print at gocharm.go:122-127. -/
theorem gocharm_success_line_despite_rev_failure_cex :
    (runCharm false false wRevFail).stdout
        = [successLine wRevFail (wRevFail.revision + 1)]
    ∧ (runCharm false false wRevFail).revision = wRevFail.revision
    ∧ (runCharm false false wRevFail).errored = true := by
  exact ⟨rfl, rfl, rfl⟩

/-- Counterexample for C6 as stated: at `wStatErr` the classification stat
fails with an error other than "does not exist"; the charm is skipped and a
warning is printed, but `warningf` (gocharm.go:279-281) does not touch the
exit code, so a run containing only this charm exits 0 — the exit status
does not reflect the failed charm. -/
theorem gocharm_stat_error_exit_status_cex :
    (gocharmMain "repo" "" false false [wStatErr]).exitCode = 0
    ∧ (gocharmMain "repo" "" false false [wStatErr]).stderr ≠ []
    ∧ (runCharm false false wStatErr).errored = false
    ∧ (runCharm false false wStatErr).revision = wStatErr.revision := by
  exact ⟨rfl, by decide, rfl, rfl⟩

/-- C6 (amended): a charm whose classification fails with a filesystem error
other than "does not exist" is skipped — no build, no stub writes, no
revision bump — a warning naming the charm goes to the diagnostic stream,
and the run continues with the remaining charms; but the skip is reported
through `warningf`, which leaves the exit status untouched, so the process
exit status does not reflect this failure. -/
theorem gocharm_stat_error_skip_warn_no_exit_code (test verbose : Bool)
    (w : CharmWorld) (m : String) (h : w.statRunhook = StatResult.statErr m) :
    (runCharm test verbose w).buildInvoked = false
    ∧ (runCharm test verbose w).stubFs = w.stubFs
    ∧ (runCharm test verbose w).revision = w.revision
    ∧ (runCharm test verbose w).errored = false
    ∧ (runCharm test verbose w).stdout = []
    ∧ (runCharm test verbose w).stderr
        = ["gocharm: warning: cannot determine if " ++ w.path ++
           " is a Go charm: " ++ m]
    ∧ ∀ (rf er : String) (rest : List CharmWorld), (rf = "" ∧ er = "" → False) →
        (gocharmMain rf er test verbose (w :: rest)).outcomes
          = runCharm test verbose w :: rest.map (runCharm test verbose) := by
  refine ⟨?_, ?_, ?_, ?_, ?_, ?_, ?_⟩
  · simp [runCharm, h, isGoCharm]
  · simp [runCharm, h, isGoCharm]
  · simp [runCharm, h, isGoCharm]
  · simp [runCharm, h, isGoCharm]
  · simp [runCharm, h, isGoCharm]
  · simp [runCharm, h, isGoCharm]
  · intro rf er rest hne
    simp only [gocharmMain]
    rw [if_neg hne]
    simp

/-- Witness for C6 (amended) at `wStatErr` inside a one-charm run. -/
theorem gocharm_stat_error_skip_warn_no_exit_code_witness :
    (runCharm false false wStatErr).errored = false
    ∧ (runCharm false false wStatErr).revision = wStatErr.revision
    ∧ (gocharmMain "repo" "" false false [wStatErr]).outcomes
        = [runCharm false false wStatErr] := by
  have h := gocharm_stat_error_skip_warn_no_exit_code false false wStatErr
    "permission denied" rfl
  refine ⟨h.2.2.2.1, h.2.2.1, ?_⟩
  have h2 := h.2.2.2.2.2.2 "repo" "" [] (fun hx => absurd hx.1 (by decide))
  simpa using h2

theorem writeHooks_preserves_existing (hooks : List String)
    (fs : String → Option String) (k v : String) (h : fs k = some v) :
    (writeHooks fs hooks).1 k = some v :=
  foldl_syncStub_preserves hooks fs [] k v h

theorem writeHooks_conflict_recorded (hooks : List String)
    (fs : String → Option String) (k v : String) (hmem : k ∈ hooks)
    (hfs : fs k = some v) (hne : v ≠ stubContent k) :
    k ∈ (writeHooks fs hooks).2 :=
  foldl_syncStub_conflict hooks fs [] k v hmem hfs hne

/-- C3: a hook of the stub set whose stub file already exists with content
different from the canonical generated content is left byte-for-byte
unchanged by the run, a warning naming the conflicting file is emitted on
the diagnostic stream, and the charm still succeeds: its revision is
bumped. -/
theorem gocharm_conflicting_stub_preserved (verbose : Bool) (w : CharmWorld)
    (l : List String) (h c : String)
    (hstat : w.statRunhook = StatResult.isDir) (hcomp : w.compileOk = true)
    (hbin : w.binRunhookExists = true) (hreg : w.registeredHooks = some l)
    (hwr : w.stubWriteOk = true) (hrev : w.revWriteOk = true)
    (hmem : h ∈ addStop l) (hfs : w.stubFs h = some c)
    (hne : c ≠ stubContent h) :
    (runCharm false verbose w).stubFs h = some c
    ∧ conflictWarning w h ∈ (runCharm false verbose w).stderr
    ∧ (runCharm false verbose w).revision = w.revision + 1 := by
  have hbody : processGoCharm false w =
      { stubFs := (writeHooks w.stubFs (addStop l)).1,
        conflicts := (writeHooks w.stubFs (addStop l)).2,
        pkgExists := false, buildInvoked := true, doneSomething := true,
        err := none } := by
    simp [processGoCharm, processGoCharmBody, hcomp, hbin, hreg, hwr]
  have hrc : runCharm false verbose w =
      { stubFs := (writeHooks w.stubFs (addStop l)).1,
        revision := w.revision + 1, pkgExists := false, buildInvoked := true,
        stdout := [successLine w (w.revision + 1)],
        stderr := (if verbose then ["processing " ++ w.path] else []) ++
          (writeHooks w.stubFs (addStop l)).2.map (conflictWarning w),
        errored := false } := by
    simp [runCharm, hstat, isGoCharm, hbody, hrev]
  rw [hrc]
  refine ⟨writeHooks_preserves_existing _ _ _ _ hfs, ?_, rfl⟩
  exact List.mem_append_right _
    (List.mem_map_of_mem _ (writeHooks_conflict_recorded _ _ _ _ hmem hfs hne))

/-- Witness for C3: the hand-edited `stop` stub of `wConflict` survives the
run unchanged, the conflict is reported, and the revision still advances. -/
theorem gocharm_conflicting_stub_preserved_witness :
    (runCharm false false wConflict).stubFs "stop" = some "# custom edit"
    ∧ conflictWarning wConflict "stop" ∈ (runCharm false false wConflict).stderr
    ∧ (runCharm false false wConflict).revision = wConflict.revision + 1 :=
  gocharm_conflicting_stub_preserved false wConflict ["config-changed"]
    "stop" "# custom edit" rfl rfl rfl rfl rfl rfl (by decide) rfl (by decide)

/-- C5: a run with no resolvable repository root, or with zero discovered
charms, aborts with exit status 2 and no per-charm output; a configured run
over at least one charm never exits 2 — it exits 1 exactly when some charm
failed, and 0 otherwise — so the fatal status is distinct from the
per-charm-failure status. -/
theorem gocharm_fatal_configuration_distinct (repoFlag envRepo : String)
    (test verbose : Bool) (charms : List CharmWorld) :
    (repoFlag = "" ∧ envRepo = "" →
      (gocharmMain repoFlag envRepo test verbose charms).exitCode = 2
      ∧ (gocharmMain repoFlag envRepo test verbose charms).stdout = []
      ∧ (gocharmMain repoFlag envRepo test verbose charms).outcomes = [])
    ∧ (charms = [] →
      (gocharmMain repoFlag envRepo test verbose charms).exitCode = 2
      ∧ (gocharmMain repoFlag envRepo test verbose charms).stdout = []
      ∧ (gocharmMain repoFlag envRepo test verbose charms).outcomes = [])
    ∧ ((repoFlag = "" ∧ envRepo = "" → False) → charms ≠ [] →
      (gocharmMain repoFlag envRepo test verbose charms).exitCode ≠ 2
      ∧ ((gocharmMain repoFlag envRepo test verbose charms).exitCode = 1 ↔
          ∃ x ∈ charms, (runCharm test verbose x).errored = true)) := by
  refine ⟨?_, ?_, ?_⟩
  · intro h
    simp [gocharmMain, h.1, h.2]
  · intro h
    subst h
    by_cases hr : repoFlag = "" ∧ envRepo = ""
    · simp [gocharmMain, hr.1, hr.2]
    · simp only [gocharmMain]
      rw [if_neg hr]
      simp
  · intro hne hcne
    have hc : charms.isEmpty = false := by
      cases charms with
      | nil => exact absurd rfl hcne
      | cons a l => rfl
    simp only [gocharmMain]
    rw [if_neg hne]
    simp only [hc, Bool.false_eq_true, if_false]
    cases hany : (charms.map (runCharm test verbose)).any (·.errored) with
    | false =>
      have hnex : ¬ ∃ x ∈ charms, (runCharm test verbose x).errored = true := by
        intro ⟨x, hx, he⟩
        have : (charms.map (runCharm test verbose)).any (·.errored) = true :=
          List.any_eq_true.mpr ⟨runCharm test verbose x, List.mem_map_of_mem _ hx, he⟩
        rw [hany] at this
        cases this
      simp [hany, hnex]
    | true =>
      have hex : ∃ x ∈ charms, (runCharm test verbose x).errored = true := by
        obtain ⟨o, ho, he⟩ := List.any_eq_true.mp hany
        obtain ⟨x, hx, rfl⟩ := List.mem_map.mp ho
        exact ⟨x, hx, he⟩
      simp [hany, hex]

/-- Witness for C5: a run with no repository root and a run with zero charms
both exit 2 with empty output; a configured run over one failing charm exits
1, not 2. -/
theorem gocharm_fatal_configuration_distinct_witness :
    (gocharmMain "" "" false false [wOk]).exitCode = 2
    ∧ (gocharmMain "" "" false false [wOk]).stdout = []
    ∧ (gocharmMain "" "" false false [wOk]).outcomes = []
    ∧ (gocharmMain "repo" "" false false ([] : List CharmWorld)).exitCode = 2
    ∧ (gocharmMain "repo" "" false false ([] : List CharmWorld)).stdout = []
    ∧ (gocharmMain "repo" "" false false [wBuildFail]).exitCode ≠ 2
    ∧ (gocharmMain "repo" "" false false [wBuildFail]).exitCode = 1 := by
  have h1 := gocharm_fatal_configuration_distinct "" "" false false [wOk]
  have h2 := gocharm_fatal_configuration_distinct "repo" "" false false
    ([] : List CharmWorld)
  have h3 := gocharm_fatal_configuration_distinct "repo" "" false false [wBuildFail]
  have ha := h1.1 ⟨rfl, rfl⟩
  have hb := h2.2.1 rfl
  have hcx := h3.2.2 (fun hx => absurd hx.1 (by decide)) (by simp)
  exact ⟨ha.1, ha.2.1, ha.2.2, hb.1, hb.2.1, hcx.1,
    hcx.2.mpr ⟨wBuildFail, List.mem_singleton.mpr rfl, by decide⟩⟩
